import Mathlib

/-!
Verification of the pmsd-project repository (longitudinal brain-MRI
generation experiments).  The definitions below are shallow embeddings of
the Python source:

* `src/model/losses.py` — `l2_loss`, `l2_loss_longitudinal`,
  `wgan_gp_loss`, `vae_loss`;
* `src/reference_papers/spie_paper/train_wgan.py` —
  `merge_latent_vectors`, the gradient-clipping stage of `train_step`,
  the checkpoint-restore / `initial_epoch` logic, the epoch range of
  `fit`, and the top-level try/except around `fit`;
* `src/datasets/adni_dataset.py` — `decode_img`.

Tensors are embedded as lists: a batch is a `List` of examples, an
example (image or latent vector) a `List` of scalars.  Exact rationals
are used where the source needs only field arithmetic; reals are used
where the source computes square roots (`tf.norm`) or logarithms
(`tf.math.log`).  TensorFlow's random draw (`tf.random.uniform`) and the
automatic gradient (`tape.gradient`) are passed in as explicit
parameters, so every theorem quantifies over them.
-/

namespace Pmsd

/-- `tf.reduce_mean` over a flattened tensor: sum divided by element
count (division by zero yields 0 for the empty tensor, where TensorFlow
yields NaN; no theorem below relies on the empty case being 0). -/
def reduce_mean {K : Type*} [DivisionRing K] (l : List K) : K :=
  l.sum / (l.length : K)

/-! ### Dataset loader, src/datasets/adni_dataset.py -/

/-- `decode_img` from `get_adni_dataset`: an 8-bit pixel value is cast
to float and divided by 256.0.  Both the cast and the division by a
power of two are exact in binary floating point for `v ≤ 255`, so the
rational embedding is faithful. -/
def decode_img (v : ℕ) : ℚ :=
  (v : ℚ) / 256

/-! ### Checkpoint restore and epoch loop, train_wgan.py -/

/-- The `epoch` variable of the `tf.train.Checkpoint` after
`checkpoint.restore(manager.latest_checkpoint)`: it is created as
`tf.Variable(0)`, and restoring from `None` (no checkpoint found) is a
no-op, so it keeps its initial value 0; otherwise it holds the epoch
recorded in the latest checkpoint. -/
def restored_checkpoint_epoch (latest_checkpoint : Option ℕ) : ℕ :=
  latest_checkpoint.getD 0

/-- `initial_epoch = checkpoint.epoch.numpy() + 1` (train_wgan.py line
165). -/
def initial_epoch (latest_checkpoint : Option ℕ) : ℕ :=
  restored_checkpoint_epoch latest_checkpoint + 1

/-- The `EPOCHS` configuration constant of train_wgan.py. -/
def EPOCHS : ℕ := 2000

/-- The epoch indices executed by `fit`: it first runs
`assert initial_epoch < num_epochs` (modelled by `none` on failure) and
then iterates `for epoch in range(initial_epoch, num_epochs)`. -/
def fit_epoch_indices (init num_epochs : ℕ) : Option (List ℕ) :=
  if init < num_epochs then some (List.range' init (num_epochs - init)) else none

/-- The first epoch index the `fit` loop executes, given the latest
checkpoint found on the restore path. -/
def first_executed_epoch (latest_checkpoint : Option ℕ) (num_epochs : ℕ) : Option ℕ :=
  (fit_epoch_indices (initial_epoch latest_checkpoint) num_epochs).bind List.head?

/-! ### Top-level exception handling around `fit`, train_wgan.py -/

/-- How the body of the top-level `try` in train_wgan.py terminates. -/
inductive TrainingOutcome : Type
  | completed
  | keyboardInterrupt
  | otherException
deriving DecidableEq

/-- Effects performed by the top-level try/except of train_wgan.py. -/
structure TopLevelEffects : Type where
  checkpoint_saved : Bool
  writer_closed : Bool
  reraised : Bool
deriving DecidableEq

/-- The top-level try/except around `fit` (train_wgan.py lines 388-456):
on normal completion it saves a final checkpoint and closes the summary
writer; `except KeyboardInterrupt` saves a checkpoint and closes the
writer; the bare `except` only closes the writer.  No branch re-raises. -/
def fit_top_level_handler : TrainingOutcome → TopLevelEffects
  | TrainingOutcome.completed =>
      { checkpoint_saved := true, writer_closed := true, reraised := false }
  | TrainingOutcome.keyboardInterrupt =>
      { checkpoint_saved := true, writer_closed := true, reraised := false }
  | TrainingOutcome.otherException =>
      { checkpoint_saved := false, writer_closed := true, reraised := false }

/-! ### Latent interpolation, train_wgan.py `merge_latent_vectors` -/

/-- `merge_latent_vectors(latent0, latent2, a1, a2)` from train_wgan.py:
builds `[(latent0[i] * a2[i] + latent2[i] * a1[i]) / (a1[i] + a2[i]) for
i in range(a1.shape[0])]`.  Indexing is embedded by `List.getD`
(out-of-range indices cannot occur under the shape hypotheses of the
theorems); the scalar-by-vector products and the vector sum are
elementwise over the zipped latent rows. -/
def merge_latent_vectors (latent0 latent2 : List (List ℚ)) (a1 a2 : List ℚ) :
    List (List ℚ) :=
  (List.range a1.length).map fun i =>
    ((latent0.getD i []).zip (latent2.getD i [])).map fun p =>
      (p.1 * a2.getD i 0 + p.2 * a1.getD i 0) / (a1.getD i 0 + a2.getD i 0)

/-! ### L2 losses, src/model/losses.py -/

/-- `l2_loss(target_y, predicted_y) = tf.reduce_mean(tf.square(target_y
- predicted_y))`, elementwise over equally shaped tensors. -/
def l2_loss (target_y predicted_y : List ℚ) : ℚ :=
  reduce_mean (List.zipWith (fun a b => (a - b) ^ 2) target_y predicted_y)

/-- `l2_loss_longitudinal(imgs, generated_imgs, index)`: per-timepoint
losses `[l2_loss(x, y) for x, y in zip(generated_imgs, imgs)]`, their
running sum, and the loss at `index`.  An out-of-range `index` raises
`IndexError` in Python, embedded as `none`. -/
def l2_loss_longitudinal (imgs generated_imgs : List (List ℚ)) (index : ℕ) :
    Option (ℚ × ℚ) :=
  let losses := (generated_imgs.zip imgs).map fun p => l2_loss p.1 p.2
  match losses[index]? with
  | some v => some (losses.foldl (· + ·) 0, v)
  | none => none

/-! ### WGAN-GP loss, src/model/losses.py -/

/-- Per-example L2 norm: `tf.norm(tf.reshape(grad, [B, -1]), axis=1)`
applied to one example whose entries have been flattened to a list. -/
noncomputable def l2norm (t : List ℝ) : ℝ :=
  Real.sqrt ((t.map fun x => x * x).sum)

/-- `wgan_gp_loss(f, x_real, x_fake, lambda_gp)` from losses.py.  The
critic `f` takes the two-tensor input `[x, x_real]` and yields one score
per example; `tf.reduce_mean` averages them.  The random interpolation
coefficients (`tf.random.uniform`, one scalar per example, broadcast
over the image) enter as the parameter `alpha`, and the automatic
gradient of `f([x_hat, x_real])` with respect to `x_hat`
(`tape.gradient`) enters as the parameter `gradf`, returning one
flattened gradient per example.  Returns
`(gen_loss, disc_loss, gp)` in the source's return order. -/
noncomputable def wgan_gp_loss (f : List (List ℝ) → List (List ℝ) → List ℝ)
    (gradf : List (List ℝ) → List (List ℝ) → List (List ℝ))
    (alpha : List ℝ) (x_real x_fake : List (List ℝ)) (lambda_gp : ℝ) :
    ℝ × ℝ × ℝ :=
  let disc_real_output := reduce_mean (f x_real x_real)
  let disc_fake_output := reduce_mean (f x_fake x_real)
  let x_hat := List.zipWith
    (fun (p : List ℝ × ℝ) (xf : List ℝ) =>
      List.zipWith (fun xr xfj => xr + p.2 * (xr - xfj)) p.1 xf)
    (x_real.zip alpha) x_fake
  let grad := gradf x_hat x_real
  let grad_norm := grad.map l2norm
  let gp := reduce_mean (grad_norm.map fun n => (n - 1) ^ 2)
  (-disc_fake_output, disc_fake_output - disc_real_output + lambda_gp * gp, gp)

/-! ### VAE loss, src/model/losses.py -/

/-- `vae_loss(x_real, x_fake, latent_mean, latent_std, normal_std)`
from losses.py: the KL term averages
`log(normal_std / (|latent_std| + 1e-3)) + (latent_std² + latent_mean²
- normal_std²) / (2 normal_std²)` over the latent elements, the
reconstruction term is the mean squared difference of the images, and
the total is their sum.  Returns `(total, reconst, kl)` in the source's
return order. -/
noncomputable def vae_loss (x_real x_fake latent_mean latent_std : List ℝ)
    (normal_std : ℝ) : ℝ × ℝ × ℝ :=
  let epsilon : ℝ := 1 / 1000
  let kl_loss := reduce_mean ((latent_std.zip latent_mean).map fun p =>
    Real.log (normal_std / (|p.1| + epsilon))
      + (p.1 * p.1 + p.2 * p.2 - normal_std * normal_std)
        / (2 * normal_std * normal_std))
  let reconst_loss := reduce_mean ((x_real.zip x_fake).map fun p => (p.1 - p.2) ^ 2)
  (reconst_loss + kl_loss, reconst_loss, kl_loss)

/-- Modelled from the spec: the KL closed form exactly as §4.3 writes
it, `log(prior_std/|latent_std+eps|) + (latent_std² + latent_mean² -
prior_std²)/(2·prior_std²)` averaged over all elements, with the
absolute value taken of the sum `latent_std + eps` as the spec's
notation states.  Written only to be compared against the KL term
`vae_loss` computes. -/
noncomputable def vae_kl_spec_form (latent_mean latent_std : List ℝ)
    (normal_std : ℝ) : ℝ :=
  let epsilon : ℝ := 1 / 1000
  reduce_mean ((latent_std.zip latent_mean).map fun p =>
    Real.log (normal_std / |p.1 + epsilon|)
      + (p.1 * p.1 + p.2 * p.2 - normal_std * normal_std)
        / (2 * normal_std * normal_std))

/-! ### Gradient clipping in `train_step`, train_wgan.py -/

/-- `tf.clip_by_norm(t, clip_norm)`: if the tensor's own L2 norm
exceeds `clip_norm`, rescale it to have norm `clip_norm`; otherwise
return it unchanged. -/
noncomputable def clip_by_norm (t : List ℝ) (clip_norm : ℝ) : List ℝ :=
  if clip_norm < l2norm t then t.map fun x => x * (clip_norm / l2norm t) else t

/-- `tf.clip_by_value(t, lo, hi)`: elementwise clamp into `[lo, hi]`. -/
def clip_by_value (t : List ℝ) (lo hi : ℝ) : List ℝ :=
  t.map fun x => min (max x lo) hi

/-- The gradient-clipping stage of `train_step` (train_wgan.py lines
227-235): when `CLIP_BY_NORM is not None`, each gradient tensor is
mapped through `tf.clip_by_norm(t, CLIP_BY_NORM)`; then, when
`CLIP_BY_VALUE is not None`, each tensor is mapped through
`tf.clip_by_value(t, -CLIP_BY_VALUE, CLIP_BY_VALUE)`.  The two `None`
checks are independent. -/
noncomputable def clip_gradients (clip_by_norm_cfg clip_by_value_cfg : Option ℝ)
    (generator_gradients : List (List ℝ)) : List (List ℝ) :=
  let g1 := match clip_by_norm_cfg with
    | some c => generator_gradients.map fun t => clip_by_norm t c
    | none => generator_gradients
  match clip_by_value_cfg with
  | some c => g1.map fun t => clip_by_value t (-c) c
  | none => g1

/-- Modelled from the spec: "when clip-by-global-norm is enabled the
gradient list is rescaled by its global norm" — the whole gradient list
is rescaled by the single L2 norm of all its entries together when that
global norm exceeds the threshold (the semantics of
`tf.clip_by_global_norm`).  Written only to be compared against what
`train_step` actually applies. -/
noncomputable def clip_by_global_norm_spec (grads : List (List ℝ)) (clip_norm : ℝ) :
    List (List ℝ) :=
  let gn := Real.sqrt ((grads.map fun t => (t.map fun x => x * x).sum).sum)
  if clip_norm < gn then grads.map fun t => t.map fun x => x * (clip_norm / gn)
  else grads

/-! ### Helper lemmas -/

/-- Folding addition from 0 over a list is its sum. -/
lemma foldl_add_eq_sum {M : Type*} [AddCommMonoid M] (l : List M) :
    l.foldl (· + ·) 0 = l.sum := by
  suffices h : ∀ a : M, l.foldl (· + ·) a = a + l.sum by
    simpa using h 0
  induction l with
  | nil => intro a; simp
  | cons x t ih => intro a; simp [ih, add_assoc]

/-- Indexing a map over `List.range` with a default evaluates the
function at the index. -/
lemma getD_range_map {A : Type*} (d : A) :
    ∀ (n : ℕ) (f : ℕ → A) (i : ℕ), i < n →
      ((List.range n).map f).getD i d = f i := by
  intro n
  induction n with
  | zero => intro f i h; omega
  | succ m ih =>
    intro f i h
    rw [List.range_succ_eq_map, List.map_cons, List.map_map]
    cases i with
    | zero => simp
    | succ j =>
      rw [List.getD_cons_succ]
      have hj : j < m := by omega
      simpa [Function.comp] using ih (f ∘ Nat.succ) j hj

/-- A map over a zip of equally long lists, rewritten as a map over the
index range with default-valued indexing. -/
lemma zip_map_eq_range_map {A B C : Type*} (F : A → B → C) (d1 : A) (d2 : B) :
    ∀ (l1 : List A) (l2 : List B), l1.length = l2.length →
      (l1.zip l2).map (fun p => F p.1 p.2)
        = (List.range l1.length).map fun i => F (l1.getD i d1) (l2.getD i d2) := by
  intro l1
  induction l1 with
  | nil => intro l2 _; simp
  | cons a t1 ih =>
    intro l2 h
    cases l2 with
    | nil => simp at h
    | cons b t2 =>
      have h' : t1.length = t2.length := by simpa using h
      rw [List.zip_cons_cons, List.map_cons, List.length_cons,
        List.range_succ_eq_map, List.map_cons, List.map_map, ih t2 h']
      refine congrArg₂ _ (by simp) (List.map_congr_left ?_)
      intro i _
      simp [Function.comp]

/-- Default-valued indexing into a map over a zip evaluates the
function at the two indexed elements. -/
lemma getD_zip_map {A B C : Type*} (F : A → B → C) (d1 : A) (d2 : B) (dc : C) :
    ∀ (l1 : List A) (l2 : List B) (j : ℕ), j < l1.length → j < l2.length →
      ((l1.zip l2).map fun p => F p.1 p.2).getD j dc
        = F (l1.getD j d1) (l2.getD j d2) := by
  intro l1
  induction l1 with
  | nil => intro l2 j h1 h2; simp at h1
  | cons a t1 ih =>
    intro l2 j h1 h2
    cases l2 with
    | nil => simp at h2
    | cons b t2 =>
      cases j with
      | zero => simp
      | succ k =>
        simp only [List.zip_cons_cons, List.map_cons, List.getD_cons_succ]
        exact ih t2 k (by simpa using h1) (by simpa using h2)

/-! ### Claim theorems -/

/-- C10: for every 8-bit pixel value `v ≤ 255`, `decode_img` produces
`v / 256`, which lies in `[0, 255/256]` and in particular is strictly
below 1 — the upper bound 1 is never attained. -/
theorem decode_img_range (v : ℕ) (h : v ≤ 255) :
    decode_img v = (v : ℚ) / 256 ∧ 0 ≤ decode_img v ∧
      decode_img v ≤ 255 / 256 ∧ decode_img v < 1 := by
  have hv : (v : ℚ) ≤ 255 := by exact_mod_cast h
  have h0 : 0 ≤ decode_img v := by unfold decode_img; positivity
  have h1 : decode_img v ≤ 255 / 256 := by unfold decode_img; gcongr
  exact ⟨rfl, h0, h1, lt_of_le_of_lt h1 (by norm_num)⟩

/-- Witness for C10 at the extreme pixel value 255. -/
theorem decode_img_range_witness :
    (255 : ℕ) ≤ 255 ∧
      (decode_img 255 = ((255 : ℕ) : ℚ) / 256 ∧ 0 ≤ decode_img 255 ∧
        decode_img 255 ≤ 255 / 256 ∧ decode_img 255 < 1) :=
  ⟨by decide, decode_img_range 255 (by decide)⟩

/-- C7 counterexample: with no checkpoint on the restore path, the
training loop's first executed epoch index is 1, not 0 — the `+ 1` in
`initial_epoch = checkpoint.epoch.numpy() + 1` skips epoch 0 on a fresh
start. -/
theorem first_epoch_fresh_start_counterexample :
    first_executed_epoch none EPOCHS = some 1 ∧
      first_executed_epoch none EPOCHS ≠ some 0 := by
  have h : first_executed_epoch none EPOCHS = some 1 := by
    have h1 : initial_epoch none = 1 := rfl
    rw [first_executed_epoch, h1, fit_epoch_indices]
    rw [if_pos (by norm_num [EPOCHS])]
    have h2 : EPOCHS - 1 = 1998 + 1 := by norm_num [EPOCHS]
    rw [h2, List.range'_succ]
    rfl
  exact ⟨h, by rw [h]; simp⟩

/-- C7 amended: when no checkpoint exists on the restore path the
training loop starts without error (the `assert initial_epoch <
num_epochs` passes and the epoch loop is entered), and its first
executed epoch index is 1, because `initial_epoch` is the fresh
checkpoint epoch counter 0 plus 1. -/
theorem fit_fresh_start_runs_from_epoch_one :
    (fit_epoch_indices (initial_epoch none) EPOCHS).isSome = true ∧
      initial_epoch none = 1 ∧ first_executed_epoch none EPOCHS = some 1 := by
  refine ⟨?_, rfl, ?_⟩
  · rw [initial_epoch, restored_checkpoint_epoch]
    rw [fit_epoch_indices, if_pos (by norm_num [EPOCHS])]
    rfl
  · have h1 : initial_epoch none = 1 := rfl
    rw [first_executed_epoch, h1, fit_epoch_indices]
    rw [if_pos (by norm_num [EPOCHS])]
    have h2 : EPOCHS - 1 = 1998 + 1 := by norm_num [EPOCHS]
    rw [h2, List.range'_succ]
    rfl

/-- C8: the top-level wrapper around `fit` closes the metrics writer on
every outcome and never re-raises; it saves a checkpoint exactly when
the outcome is not an unanticipated exception — so a `KeyboardInterrupt`
gets a best-effort save plus writer close with no re-raise, while any
other exception gets only the writer close: no save and no re-raise,
the error is swallowed. -/
theorem fit_top_level_exception_policy (o : TrainingOutcome) :
    (fit_top_level_handler o).writer_closed = true ∧
      (fit_top_level_handler o).reraised = false ∧
      ((fit_top_level_handler o).checkpoint_saved = true ↔
        o ≠ TrainingOutcome.otherException) := by
  cases o <;> simp [fit_top_level_handler]

/-- C1: for equally shaped latent batches and gap vectors with nonzero
per-example gap sums, `merge_latent_vectors` returns the batch whose
`i`-th row has `j`-th entry `(latent0[i][j] * a2[i] + latent2[i][j] *
a1[i]) / (a1[i] + a2[i])`, each batch element computed independently
with the iteration index running over the batch axis of `a1`. -/
theorem merge_latent_vectors_pointwise
    (latent0 latent2 : List (List ℚ)) (a1 a2 : List ℚ)
    (h0 : latent0.length = a1.length) (h2 : latent2.length = a1.length)
    (ha : a2.length = a1.length)
    (hshape : ∀ i, i < a1.length →
      (latent0.getD i []).length = (latent2.getD i []).length)
    (hnz : ∀ i, i < a1.length → a1.getD i 0 + a2.getD i 0 ≠ 0) :
    (merge_latent_vectors latent0 latent2 a1 a2).length = a1.length ∧
    ∀ i j, i < a1.length → j < (latent0.getD i []).length →
      ((merge_latent_vectors latent0 latent2 a1 a2).getD i []).getD j 0
        = ((latent0.getD i []).getD j 0 * a2.getD i 0
            + (latent2.getD i []).getD j 0 * a1.getD i 0)
          / (a1.getD i 0 + a2.getD i 0) := by
  constructor
  · simp [merge_latent_vectors]
  · intro i j hi hj
    have hrow : (merge_latent_vectors latent0 latent2 a1 a2).getD i []
        = ((latent0.getD i []).zip (latent2.getD i [])).map fun p =>
            (p.1 * a2.getD i 0 + p.2 * a1.getD i 0)
              / (a1.getD i 0 + a2.getD i 0) :=
      getD_range_map _ _ _ i hi
    rw [hrow]
    exact getD_zip_map
      (fun x y => (x * a2.getD i 0 + y * a1.getD i 0)
        / (a1.getD i 0 + a2.getD i 0)) 0 0 0 _ _ j hj (hshape i hi ▸ hj)

/-- Witness for C1: a two-example batch with distinct gaps. -/
theorem merge_latent_vectors_pointwise_witness :
    (([[1, 2], [5, 6]] : List (List ℚ)).length = ([1, 3] : List ℚ).length ∧
      ([[3, 4], [7, 8]] : List (List ℚ)).length = ([1, 3] : List ℚ).length ∧
      ([2, 1] : List ℚ).length = ([1, 3] : List ℚ).length ∧
      (∀ i, i < ([1, 3] : List ℚ).length →
        (([[1, 2], [5, 6]] : List (List ℚ)).getD i []).length
          = (([[3, 4], [7, 8]] : List (List ℚ)).getD i []).length) ∧
      (∀ i, i < ([1, 3] : List ℚ).length →
        ([1, 3] : List ℚ).getD i 0 + ([2, 1] : List ℚ).getD i 0 ≠ 0)) ∧
    ((merge_latent_vectors [[1, 2], [5, 6]] [[3, 4], [7, 8]] [1, 3] [2, 1]).length
        = ([1, 3] : List ℚ).length ∧
      ∀ i j, i < ([1, 3] : List ℚ).length →
        j < (([[1, 2], [5, 6]] : List (List ℚ)).getD i []).length →
        ((merge_latent_vectors [[1, 2], [5, 6]] [[3, 4], [7, 8]]
            [1, 3] [2, 1]).getD i []).getD j 0
          = ((([[1, 2], [5, 6]] : List (List ℚ)).getD i []).getD j 0
                * ([2, 1] : List ℚ).getD i 0
              + (([[3, 4], [7, 8]] : List (List ℚ)).getD i []).getD j 0
                * ([1, 3] : List ℚ).getD i 0)
            / (([1, 3] : List ℚ).getD i 0 + ([2, 1] : List ℚ).getD i 0)) :=
  ⟨⟨by decide, by decide, by decide, by decide,
      by
        intro i hi
        have hb : i < 2 := by simpa using hi
        rcases i with _ | _ | i
        · simp only [List.getD_cons_zero]; norm_num
        · simp only [List.getD_cons_succ, List.getD_cons_zero]; norm_num
        · omega⟩,
    merge_latent_vectors_pointwise [[1, 2], [5, 6]] [[3, 4], [7, 8]] [1, 3] [2, 1]
      (by decide) (by decide) (by decide) (by decide)
      (by
        intro i hi
        have hb : i < 2 := by simpa using hi
        rcases i with _ | _ | i
        · simp only [List.getD_cons_zero]; norm_num
        · simp only [List.getD_cons_succ, List.getD_cons_zero]; norm_num
        · omega)⟩

/-- C4: for equally long image sequences and a valid index,
`l2_loss_longitudinal` returns the exact sum of the per-timepoint L2
losses together with the loss at the requested index. -/
theorem l2_loss_longitudinal_spec (imgs generated_imgs : List (List ℚ))
    (index : ℕ) (hlen : generated_imgs.length = imgs.length)
    (hidx : index < generated_imgs.length) :
    l2_loss_longitudinal imgs generated_imgs index =
      some (((List.range generated_imgs.length).map fun i =>
          l2_loss (generated_imgs.getD i []) (imgs.getD i [])).sum,
        l2_loss (generated_imgs.getD index []) (imgs.getD index [])) := by
  have hzip : (generated_imgs.zip imgs).map (fun p => l2_loss p.1 p.2)
      = (List.range generated_imgs.length).map fun i =>
          l2_loss (generated_imgs.getD i []) (imgs.getD i []) :=
    zip_map_eq_range_map l2_loss [] [] generated_imgs imgs hlen
  have hget : ((List.range generated_imgs.length).map fun i =>
        l2_loss (generated_imgs.getD i []) (imgs.getD i []))[index]?
      = some (l2_loss (generated_imgs.getD index []) (imgs.getD index [])) := by
    rw [List.getElem?_map, List.getElem?_range hidx, Option.map_some']
  simp only [l2_loss_longitudinal, hzip, hget, foldl_add_eq_sum]

/-- Witness for C4: two timepoints, indexed at 1. -/
theorem l2_loss_longitudinal_spec_witness :
    (([[1, 0], [0, 2]] : List (List ℚ)).length
        = ([[0, 0], [1, 1]] : List (List ℚ)).length ∧
      1 < ([[1, 0], [0, 2]] : List (List ℚ)).length) ∧
    l2_loss_longitudinal [[0, 0], [1, 1]] [[1, 0], [0, 2]] 1 =
      some (((List.range ([[1, 0], [0, 2]] : List (List ℚ)).length).map fun i =>
          l2_loss (([[1, 0], [0, 2]] : List (List ℚ)).getD i [])
            (([[0, 0], [1, 1]] : List (List ℚ)).getD i [])).sum,
        l2_loss (([[1, 0], [0, 2]] : List (List ℚ)).getD 1 [])
          (([[0, 0], [1, 1]] : List (List ℚ)).getD 1 [])) :=
  ⟨⟨by decide, by decide⟩,
    l2_loss_longitudinal_spec [[0, 0], [1, 1]] [[1, 0], [0, 2]] 1
      (by decide) (by decide)⟩

/-- The mean of a list of nonnegative reals is nonnegative. -/
lemma reduce_mean_nonneg (l : List ℝ) (h : ∀ x ∈ l, 0 ≤ x) :
    0 ≤ reduce_mean l :=
  div_nonneg (List.sum_nonneg h) (Nat.cast_nonneg _)

/-- C2: `wgan_gp_loss` returns `gen_loss = -mean(f([x_fake, x_real]))`
exactly — the same value for any two penalty weights — and `disc_loss =
mean(f([x_fake, x_real])) - mean(f([x_real, x_real])) + lambda_gp *
penalty`, where `penalty` is the gradient-penalty component it also
returns. -/
theorem wgan_gp_loss_outputs
    (f : List (List ℝ) → List (List ℝ) → List ℝ)
    (gradf : List (List ℝ) → List (List ℝ) → List (List ℝ))
    (alpha : List ℝ) (x_real x_fake : List (List ℝ))
    (lambda_gp lambda_gp' : ℝ) :
    (wgan_gp_loss f gradf alpha x_real x_fake lambda_gp).1
        = -(reduce_mean (f x_fake x_real)) ∧
    (wgan_gp_loss f gradf alpha x_real x_fake lambda_gp).2.1
        = reduce_mean (f x_fake x_real) - reduce_mean (f x_real x_real)
          + lambda_gp * (wgan_gp_loss f gradf alpha x_real x_fake lambda_gp).2.2 ∧
    (wgan_gp_loss f gradf alpha x_real x_fake lambda_gp).1
        = (wgan_gp_loss f gradf alpha x_real x_fake lambda_gp').1 :=
  ⟨rfl, rfl, rfl⟩

/-- C3: the gradient-penalty term computed by `wgan_gp_loss` — the mean
over the batch of `(‖per-example gradient‖₂ - 1)²` — is nonnegative for
every critic, every gradient oracle, every interpolation coefficient
vector, and every penalty weight. -/
theorem wgan_gp_penalty_nonneg
    (f : List (List ℝ) → List (List ℝ) → List ℝ)
    (gradf : List (List ℝ) → List (List ℝ) → List (List ℝ))
    (alpha : List ℝ) (x_real x_fake : List (List ℝ)) (lambda_gp : ℝ) :
    0 ≤ (wgan_gp_loss f gradf alpha x_real x_fake lambda_gp).2.2 := by
  refine reduce_mean_nonneg _ ?_
  intro x hx
  obtain ⟨n, -, rfl⟩ := List.mem_map.1 hx
  positivity

/-- C5 counterexample: at `latent_std = -1/2` the KL term `vae_loss`
computes (denominator `|latent_std| + eps = 0.501`) differs from the
spec's written closed form (denominator `|latent_std + eps| = 0.499`):
absolute value and epsilon do not commute for negative predicted
standard deviations. -/
theorem vae_kl_differs_from_spec_form :
    (vae_loss [0] [0] [0] [-(1 / 2)] 1).2.2 ≠ vae_kl_spec_form [0] [-(1 / 2)] 1 := by
  have habs1 : |(-(1 / 2) : ℝ)| = 1 / 2 := by
    rw [abs_of_nonpos (by norm_num)]; norm_num
  have habs2 : |(-(1 / 2) : ℝ) + 1 / 1000| = 499 / 1000 := by
    rw [abs_of_nonpos (by norm_num)]; norm_num
  have hA : (vae_loss [0] [0] [0] [-(1 / 2)] 1).2.2
      = Real.log (1000 / 501) + (-(3 / 8) : ℝ) := by
    show reduce_mean ((([-(1 / 2)] : List ℝ).zip ([0] : List ℝ)).map fun p =>
        Real.log ((1 : ℝ) / (|p.1| + 1 / 1000))
          + (p.1 * p.1 + p.2 * p.2 - 1 * 1) / (2 * 1 * 1)) = _
    rw [show (([-(1 / 2)] : List ℝ).zip ([0] : List ℝ))
        = [(-(1 / 2), 0)] from rfl]
    rw [List.map_cons, List.map_nil, reduce_mean]
    rw [List.sum_cons, List.sum_nil, List.length_cons, List.length_nil]
    rw [habs1]
    norm_num
  have hB : vae_kl_spec_form [0] [-(1 / 2)] 1
      = Real.log (1000 / 499) + (-(3 / 8) : ℝ) := by
    show reduce_mean ((([-(1 / 2)] : List ℝ).zip ([0] : List ℝ)).map fun p =>
        Real.log ((1 : ℝ) / |p.1 + 1 / 1000|)
          + (p.1 * p.1 + p.2 * p.2 - 1 * 1) / (2 * 1 * 1)) = _
    rw [show (([-(1 / 2)] : List ℝ).zip ([0] : List ℝ))
        = [(-(1 / 2), 0)] from rfl]
    rw [List.map_cons, List.map_nil, reduce_mean]
    rw [List.sum_cons, List.sum_nil, List.length_cons, List.length_nil]
    rw [habs2]
    norm_num
  rw [hA, hB]
  intro h
  have hlt : Real.log (1000 / 501) < Real.log (1000 / 499) :=
    Real.log_lt_log (by norm_num) (by norm_num)
  have heq : Real.log (1000 / 501) = Real.log (1000 / 499) := by linarith
  exact absurd heq (ne_of_lt hlt)

/-- C5 amended: `vae_loss` computes the KL term as the closed form
`log(normal_std / (|latent_std| + eps)) + (latent_std² + latent_mean² -
normal_std²) / (2·normal_std²)` — the epsilon is added to the absolute
value of the predicted standard deviation, not inside it — averaged
over the latent elements with `eps = 1e-3`, and returns the
reconstruction MSE and `total = reconstruction + KL`. -/
theorem vae_loss_closed_form (x_real x_fake latent_mean latent_std : List ℝ)
    (normal_std : ℝ) (hlen : latent_std.length = latent_mean.length) :
    (vae_loss x_real x_fake latent_mean latent_std normal_std).1
        = (vae_loss x_real x_fake latent_mean latent_std normal_std).2.1
          + (vae_loss x_real x_fake latent_mean latent_std normal_std).2.2 ∧
    (vae_loss x_real x_fake latent_mean latent_std normal_std).2.1
        = reduce_mean ((x_real.zip x_fake).map fun p => (p.1 - p.2) ^ 2) ∧
    (vae_loss x_real x_fake latent_mean latent_std normal_std).2.2
        = reduce_mean ((List.range latent_std.length).map fun i =>
            Real.log (normal_std / (|latent_std.getD i 0| + 1 / 1000))
              + (latent_std.getD i 0 * latent_std.getD i 0
                  + latent_mean.getD i 0 * latent_mean.getD i 0
                  - normal_std * normal_std)
                / (2 * normal_std * normal_std)) := by
  refine ⟨rfl, rfl, ?_⟩
  exact congrArg reduce_mean
    (zip_map_eq_range_map
      (fun s m => Real.log (normal_std / (|s| + 1 / 1000))
        + (s * s + m * m - normal_std * normal_std)
          / (2 * normal_std * normal_std)) 0 0 latent_std latent_mean hlen)

/-- Witness for C5's amended closed form on a one-element latent. -/
theorem vae_loss_closed_form_witness :
    ([2] : List ℝ).length = ([3] : List ℝ).length ∧
    ((vae_loss [1] [0] [3] [2] 1).1
        = (vae_loss [1] [0] [3] [2] 1).2.1 + (vae_loss [1] [0] [3] [2] 1).2.2 ∧
      (vae_loss [1] [0] [3] [2] 1).2.1
        = reduce_mean ((([1] : List ℝ).zip ([0] : List ℝ)).map fun p =>
            (p.1 - p.2) ^ 2) ∧
      (vae_loss [1] [0] [3] [2] 1).2.2
        = reduce_mean ((List.range ([2] : List ℝ).length).map fun i =>
            Real.log ((1 : ℝ) / (|([2] : List ℝ).getD i 0| + 1 / 1000))
              + (([2] : List ℝ).getD i 0 * ([2] : List ℝ).getD i 0
                  + ([3] : List ℝ).getD i 0 * ([3] : List ℝ).getD i 0
                  - 1 * 1) / (2 * 1 * 1))) :=
  ⟨rfl, vae_loss_closed_form [1] [0] [3] [2] 1 rfl⟩

/-- C6 counterexample: at `latent_mean = 0`, `latent_std = normal_std =
1` the KL term returned by `vae_loss` is `log(1000/1001)`, which is
strictly negative, not 0 — the `eps = 1e-3` guard shifts the KL away
from 0 at the prior. -/
theorem vae_kl_at_prior_counterexample :
    (vae_loss [0] [0] [0] [1] 1).2.2 ≠ 0 := by
  have hA : (vae_loss [0] [0] [0] [1] 1).2.2 = Real.log (1000 / 1001) := by
    show reduce_mean ((([1] : List ℝ).zip ([0] : List ℝ)).map fun p =>
        Real.log ((1 : ℝ) / (|p.1| + 1 / 1000))
          + (p.1 * p.1 + p.2 * p.2 - 1 * 1) / (2 * 1 * 1)) = _
    rw [show (([1] : List ℝ).zip ([0] : List ℝ)) = [(1, 0)] from rfl]
    rw [List.map_cons, List.map_nil, reduce_mean]
    rw [List.sum_cons, List.sum_nil, List.length_cons, List.length_nil]
    rw [abs_one]
    norm_num
  rw [hA]
  exact ne_of_lt (Real.log_neg (by norm_num) (by norm_num))

/-- C6 amended: whenever `latent_mean = 0` and `latent_std = normal_std
> 0` (shown here on a one-element latent, for arbitrary images), the KL
term returned by `vae_loss` equals `log(normal_std / (normal_std +
1e-3))`: strictly negative and only approximately 0, because of the
epsilon guard in the logarithm's denominator. -/
theorem vae_kl_at_prior (x_real x_fake : List ℝ) (n : ℝ) (hn : 0 < n) :
    (vae_loss x_real x_fake [0] [n] n).2.2 = Real.log (n / (n + 1 / 1000)) ∧
    (vae_loss x_real x_fake [0] [n] n).2.2 < 0 := by
  have hA : (vae_loss x_real x_fake [0] [n] n).2.2
      = Real.log (n / (n + 1 / 1000)) := by
    show reduce_mean ((([n] : List ℝ).zip ([0] : List ℝ)).map fun p =>
        Real.log (n / (|p.1| + 1 / 1000))
          + (p.1 * p.1 + p.2 * p.2 - n * n) / (2 * n * n)) = _
    rw [show (([n] : List ℝ).zip ([0] : List ℝ)) = [(n, 0)] from rfl]
    rw [List.map_cons, List.map_nil, reduce_mean]
    rw [List.sum_cons, List.sum_nil, List.length_cons, List.length_nil]
    rw [abs_of_pos hn]
    have hz : (n * n + 0 * 0 - n * n) / (2 * n * n) = 0 := by ring_nf
    rw [hz]
    norm_num
  refine ⟨hA, ?_⟩
  rw [hA]
  refine Real.log_neg (div_pos hn (by linarith)) ?_
  rw [div_lt_one (by linarith)]
  linarith

/-- Witness for C6's amended statement at `normal_std = 1`. -/
theorem vae_kl_at_prior_witness :
    (0 : ℝ) < 1 ∧
    ((vae_loss [] [] [0] [1] 1).2.2 = Real.log (1 / (1 + 1 / 1000)) ∧
      (vae_loss [] [] [0] [1] 1).2.2 < 0) :=
  ⟨by norm_num, vae_kl_at_prior [] [] 1 (by norm_num)⟩

/-- Scaling every entry of a tensor scales its L2 norm by the absolute
value of the factor. -/
lemma l2norm_map_mul (t : List ℝ) (s : ℝ) :
    l2norm (t.map fun x => x * s) = l2norm t * |s| := by
  unfold l2norm
  rw [List.map_map]
  have h1 : ((fun x => x * x) ∘ fun x => x * s) = fun x => (x * x) * (s * s) := by
    funext x
    simp only [Function.comp]
    ring
  have h2 : 0 ≤ ((t.map fun x => x * x).sum) := by
    refine List.sum_nonneg ?_
    intro x hx
    obtain ⟨y, -, rfl⟩ := List.mem_map.1 hx
    exact mul_self_nonneg y
  rw [h1, List.sum_map_mul_right, Real.sqrt_mul h2, Real.sqrt_mul_self_eq_abs]

/-- `tf.clip_by_norm` with a nonnegative threshold caps the tensor's
own L2 norm at the threshold: the clipped norm is `min` of the original
norm and the threshold. -/
lemma l2norm_clip_by_norm (t : List ℝ) (c : ℝ) (hc : 0 ≤ c) :
    l2norm (clip_by_norm t c) = min (l2norm t) c := by
  unfold clip_by_norm
  by_cases h : c < l2norm t
  · rw [if_pos h, l2norm_map_mul]
    have hpos : 0 < l2norm t := lt_of_le_of_lt hc h
    rw [abs_of_nonneg (div_nonneg hc hpos.le), mul_comm,
      div_mul_cancel₀ c (ne_of_gt hpos), min_eq_right h.le]
  · rw [if_neg h, min_eq_left (le_of_not_lt h)]

/-- C9 amended: the clipping stage of `train_step` is an independently
toggleable pair of per-tensor policies applied to the generator's
gradient list before the optimizer step: with both off the list passes
through unchanged; clip-by-norm maps each tensor through
`tf.clip_by_norm` against its own L2 norm (capping each tensor's norm
at the threshold, per tensor — not against the global norm of the
list); clip-by-value clamps each entry into `[-c, c]`; with both on,
norm clipping is applied first, then value clipping. -/
theorem train_step_gradient_clipping (cn cv : ℝ) (grads : List (List ℝ))
    (hcn : 0 ≤ cn) :
    clip_gradients none none grads = grads ∧
    clip_gradients (some cn) none grads
      = grads.map (fun t => clip_by_norm t cn) ∧
    clip_gradients none (some cv) grads
      = grads.map (fun t => clip_by_value t (-cv) cv) ∧
    clip_gradients (some cn) (some cv) grads
      = (grads.map fun t => clip_by_norm t cn).map
          (fun t => clip_by_value t (-cv) cv) ∧
    ∀ t ∈ grads, l2norm (clip_by_norm t cn) = min (l2norm t) cn := by
  refine ⟨rfl, rfl, rfl, rfl, ?_⟩
  intro t _
  exact l2norm_clip_by_norm t cn hcn

/-- Witness for C9's amended clipping characterisation. -/
theorem train_step_gradient_clipping_witness :
    (0 : ℝ) ≤ 1 ∧
    (clip_gradients none none [[2]] = [[2]] ∧
      clip_gradients (some 1) none [[2]]
        = ([[2]] : List (List ℝ)).map (fun t => clip_by_norm t 1) ∧
      clip_gradients none (some 1) [[2]]
        = ([[2]] : List (List ℝ)).map (fun t => clip_by_value t (-1) 1) ∧
      clip_gradients (some 1) (some 1) [[2]]
        = (([[2]] : List (List ℝ)).map fun t => clip_by_norm t 1).map
            (fun t => clip_by_value t (-1) 1) ∧
      ∀ t ∈ ([[2]] : List (List ℝ)),
        l2norm (clip_by_norm t 1) = min (l2norm t) 1) :=
  ⟨by norm_num, train_step_gradient_clipping 1 1 [[2]] (by norm_num)⟩

/-- C9 counterexample: on the gradient list `[[3], [4]]` with threshold
`4.5`, `train_step`'s norm clipping leaves both tensors unchanged (each
tensor's own norm, 3 and 4, is below the threshold), while rescaling
the list by its global norm `√(9+16) = 5 > 4.5` would shrink both
tensors — so the enabled policy is not clip-by-global-norm. -/
theorem clip_by_norm_not_global_counterexample :
    clip_gradients (some (9 / 2)) none [[3], [4]] = [[3], [4]] ∧
    clip_by_global_norm_spec [[3], [4]] (9 / 2)
      = [[3 * (9 / 2 / 5)], [4 * (9 / 2 / 5)]] ∧
    clip_gradients (some (9 / 2)) none [[3], [4]]
      ≠ clip_by_global_norm_spec [[3], [4]] (9 / 2) := by
  have h3 : l2norm [(3 : ℝ)] = 3 := by
    unfold l2norm
    rw [List.map_cons, List.map_nil, List.sum_cons, List.sum_nil]
    rw [show (3 : ℝ) * 3 + 0 = 3 * 3 by ring, Real.sqrt_mul_self (by norm_num)]
  have h4 : l2norm [(4 : ℝ)] = 4 := by
    unfold l2norm
    rw [List.map_cons, List.map_nil, List.sum_cons, List.sum_nil]
    rw [show (4 : ℝ) * 4 + 0 = 4 * 4 by ring, Real.sqrt_mul_self (by norm_num)]
  have hglobal : Real.sqrt ((([[3], [4]] : List (List ℝ)).map fun t =>
      (t.map fun x => x * x).sum).sum) = 5 := by
    rw [show (([[3], [4]] : List (List ℝ)).map fun t =>
        (t.map fun x => x * x).sum).sum = 5 * 5 by norm_num]
    exact Real.sqrt_mul_self (by norm_num)
  have hcode : clip_gradients (some (9 / 2)) none [[3], [4]] = [[3], [4]] := by
    show ([[3], [4]] : List (List ℝ)).map (fun t => clip_by_norm t (9 / 2))
      = [[3], [4]]
    rw [List.map_cons, List.map_cons, List.map_nil]
    rw [clip_by_norm, clip_by_norm, h3, h4]
    rw [if_neg (by norm_num), if_neg (by norm_num)]
  have hspec : clip_by_global_norm_spec [[3], [4]] (9 / 2)
      = [[3 * (9 / 2 / 5)], [4 * (9 / 2 / 5)]] := by
    show (if (9 / 2 : ℝ) < Real.sqrt ((([[3], [4]] : List (List ℝ)).map fun t =>
          (t.map fun x => x * x).sum).sum)
        then ([[3], [4]] : List (List ℝ)).map fun t => t.map fun x =>
          x * (9 / 2 / Real.sqrt ((([[3], [4]] : List (List ℝ)).map fun t2 =>
            (t2.map fun x2 => x2 * x2).sum).sum))
        else [[3], [4]]) = _
    rw [hglobal, if_pos (by norm_num)]
    rfl
  refine ⟨hcode, hspec, ?_⟩
  rw [hcode, hspec]
  intro h
  have h30 : (3 : ℝ) = 3 * (9 / 2 / 5) := by
    have := congrArg (fun l => (l.getD 0 []).getD 0 (0 : ℝ)) h
    simpa using this
  norm_num at h30

end Pmsd
